import Mathlib

/-!
# Verification of `scripts/raman_wrapper.py`

Shallow embedding of the ORCA Raman wrapper script and proofs about it.

Modelling conventions:

* A text file is the list of its lines (`List String` / `List (List Char)`).
  Python file iteration and the readlines method keep the trailing `"\n"` on each
  line; every branch of the script (`strip`, substring tests, the regex,
  which has no end anchor) is insensitive to that terminator, so lines may
  be written with or without it.  For `gerar_input_orca`, whose output
  copies lines verbatim, lines are modelled exactly as `readlines` yields
  them, newline included.
* Python `float` values are modelled as exact rationals `ℚ` for the parser
  (every value the parser can produce is a finite decimal) and as real
  numbers `ℝ` for the physics formulas (which use `exp`).
* The regex character classes `\d` and `\s` are modelled by their ASCII
  fragments, which is all an ORCA output file contains.
-/

/-- The ASCII fragment of the regex class for whitespace (also what the
strip method removes). -/
def isSpaceB (c : Char) : Bool :=
  c = ' ' || c = '\t' || c = '\n' || c = '\r' || c = '\x0b' || c = '\x0c'

/-- The ASCII fragment of the regex digit class. -/
def isDigitB (c : Char) : Bool :=
  '0' ≤ c && c ≤ '9'

/-- The character class `[\d\.]` of the row regex: a digit or a dot. -/
def isDigitDotB (c : Char) : Bool :=
  isDigitB c || c = '.'

/-- Python string strip: drop leading and trailing whitespace. -/
def pyStrip (cs : List Char) : List Char :=
  ((cs.dropWhile isSpaceB).reverse.dropWhile isSpaceB).reverse

/-- Boolean list-prefix test (used to build the substring test below). -/
def listStartsWith : List Char → List Char → Bool
  | [], _ => true
  | _ :: _, [] => false
  | a :: xs, b :: ys => a = b && listStartsWith xs ys

/-- Python substring containment, the test `needle in hay` on strings. -/
def containsSubstr (needle : List Char) : List Char → Bool
  | [] => needle.isEmpty
  | c :: rest => listStartsWith needle (c :: rest) || containsSubstr needle rest

/-- The section marker literal of `parse_raman_output`. -/
def ramanMarker : List Char := "RAMAN SPECTRUM".data

/-- The header token skipped inside the section. -/
def modeToken : List Char := "Mode".data

/-- The in-section skip test of `parse_raman_output` (source lines 86–89):
`line.strip().startswith("---") or len(line.strip()) == 0 or "Mode" in line`. -/
def isSkippableLine (line : List Char) : Bool :=
  listStartsWith "---".data (pyStrip line) ||
    (pyStrip line).isEmpty ||
    containsSubstr modeToken line

/-- The compiled regex `^\s*(\d+):\s+([\d\.]+)\s+([\d\.]+)\s+([\d\.]+)`
applied with `re.match` (anchored at the start of the line only).  Because
each pair of adjacent pieces uses disjoint character classes (`\s`, `\d`,
`[\d.]`, the literal `:`), greedy matching never backtracks, so the regex
is equivalent to this maximal-munch scan.  Returns the four captured
groups. -/
def patternMatch (cs : List Char) : Option (String × String × String × String) :=
  let s0 := cs.span isSpaceB
  let p1 := s0.2.span isDigitB
  if p1.1.isEmpty then none else
  match p1.2 with
  | ':' :: r2 =>
    let w1 := r2.span isSpaceB
    if w1.1.isEmpty then none else
    let p2 := w1.2.span isDigitDotB
    if p2.1.isEmpty then none else
    let w2 := p2.2.span isSpaceB
    if w2.1.isEmpty then none else
    let p3 := w2.2.span isDigitDotB
    if p3.1.isEmpty then none else
    let w3 := p3.2.span isSpaceB
    if w3.1.isEmpty then none else
    let p4 := w3.2.span isDigitDotB
    if p4.1.isEmpty then none else
    some (String.mk p1.1, String.mk p2.1, String.mk p3.1, String.mk p4.1)
  | _ => none

/-- Value of a run of decimal digits. -/
def digitsToNat (cs : List Char) : Nat :=
  cs.foldl (fun a c => 10 * a + (c.toNat - '0'.toNat)) 0

/-- Python float conversion restricted to strings of digits and dots — the only
shape a captured group of the row regex can have.  It succeeds exactly
when the string has at most one dot and at least one digit (`"1..2"` and
`"."` raise `ValueError`); the value is the usual decimal reading. -/
def pyFloat? (cs : List Char) : Option ℚ :=
  if 2 ≤ cs.count '.' then none
  else if cs.all (fun c => c = '.') then none
  else
    let intPart := cs.takeWhile (fun c => c ≠ '.')
    let fracPart := (cs.dropWhile (fun c => c ≠ '.')).drop 1
    some ((digitsToNat intPart : ℚ) + (digitsToNat fracPart : ℚ) / 10 ^ fracPart.length)

/-- The line loop of `parse_raman_output` (source lines 78–100).  The Bool
is `raman_section_found`.  `Except.error ()` models the uncaught
`ValueError` that `float()` raises on a matched group with two dots;
`.ok` carries the frequency and activity lists in encounter order.
Note the marker test runs first on every line, even in-section, exactly as
in the source. -/
def parseRamanLoop : Bool → List (List Char) → Except Unit (List ℚ × List ℚ)
  | _, [] => Except.ok ([], [])
  | found, line :: rest =>
    if containsSubstr ramanMarker line then parseRamanLoop true rest
    else if found then
      if isSkippableLine line then parseRamanLoop true rest
      else
        match patternMatch line with
        | some g =>
          match pyFloat? g.2.1.data, pyFloat? g.2.2.1.data with
          | some fv, some av =>
            match parseRamanLoop true rest with
            | Except.ok (fs, xs) => Except.ok (fv :: fs, av :: xs)
            | Except.error e => Except.error e
          | _, _ => Except.error ()
        | none => Except.ok ([], [])
    else parseRamanLoop false rest

/-- Function `parse_raman_output` on a file given as its list of lines. -/
def parse_raman_output (lines : List String) : Except Unit (List ℚ × List ℚ) :=
  parseRamanLoop false (lines.map String.data)

/-- Sanity check: the doc-string example row from source line 72. -/
lemma patternMatch_docstring_row :
    patternMatch "   9:      331.46      0.294356      0.328512".data =
      some ("9", "331.46", "0.294356", "0.328512") := by decide

/-! ## Wavelength conversion (`converter_cm_inv_para_nm_deslocado`, lines 105–126)

All arithmetic here is rational, so the function is modelled over `ℚ`. -/

/-- ASCII lowercasing of one character, as the Python lower method does. -/
def lowerChar (c : Char) : Char :=
  if 'A' ≤ c && c ≤ 'Z' then Char.ofNat (c.toNat + 32) else c

/-- The test `modo.lower() == "stokes"` (source line 117). -/
def modoEhStokes (modo : String) : Bool :=
  modo.data.map lowerChar = "stokes".data

/-- Function `converter_cm_inv_para_nm_deslocado` (source lines 105–126): laser
wavenumber `1e7 / λ_nm`; Stokes subtracts the vibrational frequency, any
other mode adds it; scattered wavenumbers `≤ 1e-6` are clamped up to
`1e-6`; the result is `1e7` over the clamped scattered wavenumber.
The source defaults are `laser_wavelength_nm = 532.0`, `modo = "Stokes"`. -/
def converter_cm_inv_para_nm_deslocado
    (freq_cm : List ℚ) (laser_wavelength_nm : ℚ) (modo : String) : List ℚ :=
  let laser_cm_inv : ℚ := 1e7 / laser_wavelength_nm
  let freq_espalhada : List ℚ :=
    if modoEhStokes modo then freq_cm.map (fun ν => laser_cm_inv - ν)
    else freq_cm.map (fun ν => laser_cm_inv + ν)
  let clamped := freq_espalhada.map (fun x => if x ≤ 1e-6 then 1e-6 else x)
  clamped.map (fun x => 1e7 / x)

/-! ## Temperature factor (`fator_temperatura`, lines 129–143)

Uses `exp`, so it is modelled over `ℝ`. -/

/-- The constant `h*c` of the source, line 137 (J·cm). -/
noncomputable def hc : ℝ := 1.98645e-23

/-- Boltzmann constant of the source, line 138 (J/K). -/
noncomputable def k_B : ℝ := 1.380649e-23

/-- The per-frequency multiplier `n + 1` with
`n = 1.0 / (exp (hc * ν / (k_B * T)) - 1.0)` (source lines 140–143). -/
noncomputable def stokesMultiplier (T ν : ℝ) : ℝ :=
  1.0 / (Real.exp (hc * ν / (k_B * T)) - 1.0) + 1

/-- Function `fator_temperatura` (source lines 129–143): the numpy expression applied
elementwise to the frequency array.  The source default is `T = 298.15`. -/
noncomputable def fator_temperatura (freq_cm : List ℝ) (T : ℝ) : List ℝ :=
  freq_cm.map (stokesMultiplier T)

/-! ## Input generation (`gerar_input_orca`, lines 8–45) -/

/-- The fixed template header of the generated input file (source
lines 27–34), with the method and basis interpolated. -/
def orcaHeader (method basis : String) : String :=
  "! " ++ method ++ " " ++ basis ++ " OPT NUMFREQ\n\n%elprop\n   POLAR 1\nend\n\n* xyz 0 1\n"

/-- Python `int()` on a stripped line, restricted to unsigned digit strings
(the shape the claims quantify over); `none` models the uncaught
`ValueError` on anything else. -/
def parseNatLine (cs : List Char) : Option Nat :=
  let s := pyStrip cs
  if s.isEmpty then none
  else if s.all isDigitB then some (digitsToNat s) else none

/-- Function `gerar_input_orca` (source lines 8–45) on a geometry file given as its
`readlines` list (each line keeps its trailing newline).  Returns the
name and content of the written file; `none` models the crash on an empty file
or a non-numeric first line. -/
def gerar_input_orca (xyz_lines : List String) (method basis jobname : String) :
    Option (String × String) :=
  match xyz_lines with
  | [] => none
  | l0 :: _ =>
    match parseNatLine l0.data with
    | none => none
    | some natoms =>
      let coords := (xyz_lines.drop 2).take natoms
      let content := orcaHeader method basis ++ String.join coords ++ "*\n"
      some (jobname ++ ".inp", content)

/-! ## Driver control flow (`main`, lines 146–225)

Only the data-dependent control flow after parsing is modelled: the
subprocess call and the matplotlib rendering are opaque side effects; what
is observable is whether `main` returns early with the diagnostic message
(source lines 173–175) or goes on to save the figure whose name is the job
name followed by the suffix `_raman_spectrum.png` (source line 223). -/

/-- Outcome of `main` after the parsing step. -/
inductive MainOutcome
  | no_raman_data (msg : String)
  | figure_saved (fig_name : String)
deriving DecidableEq

/-- The branch of `main` on the parsed result (source lines 172–225). -/
def mainAfterParse (jobname : String) (freq_cm activity : List ℚ) : MainOutcome :=
  if freq_cm.length = 0 then
    MainOutcome.no_raman_data "Não foi possível encontrar dados de Raman no arquivo de saída."
  else
    MainOutcome.figure_saved (jobname ++ "_raman_spectrum.png")

/-- The frequency and activity of one line, when the line matches the row
pattern and both fields convert to floats; `none` otherwise.  This is the
per-line composition of the match at source line 91 with the conversions at
source lines 94–95. -/
def rowValues? (line : List Char) : Option (ℚ × ℚ) :=
  match patternMatch line with
  | some g =>
    match pyFloat? g.2.1.data, pyFloat? g.2.2.1.data with
    | some fv, some av => some (fv, av)
    | _, _ => none
  | none => none

/-- Specification-side reference extraction for the in-section lines,
following the spec wording: skip lines that are blank, begin with a dash
rule, or contain the Mode token; from every line matching the numeric-row
pattern take the frequency and activity as floating-point numbers, in
encounter order.  To be compared with the loop of the source
(`parseRamanLoop`) on files of the shape the claim quantifies over. -/
def specSectionValues : List (List Char) → List ℚ × List ℚ
  | [] => ([], [])
  | line :: rest =>
    if isSkippableLine line then specSectionValues rest
    else
      match rowValues? line with
      | some p => (p.1 :: (specSectionValues rest).1, p.2 :: (specSectionValues rest).2)
      | none => specSectionValues rest

/-! ## Helper lemmas -/

/-- Before the marker is found, the loop discards marker-free lines. -/
lemma parseRamanLoop_false_append (pre rest : List (List Char))
    (h : ∀ l ∈ pre, containsSubstr ramanMarker l = false) :
    parseRamanLoop false (pre ++ rest) = parseRamanLoop false rest := by
  induction pre with
  | nil => rfl
  | cons l t ih =>
    have hl : containsSubstr ramanMarker l = false := h l (List.mem_cons_self l t)
    have ht : ∀ x ∈ t, containsSubstr ramanMarker x = false :=
      fun x hx => h x (List.mem_cons_of_mem l hx)
    simp only [List.cons_append, parseRamanLoop, hl, Bool.false_eq_true, if_false]
    exact ih ht

/-- Inversion of `rowValues?`: a produced pair comes from a pattern match
whose second and third groups convert to exactly those floats. -/
lemma rowValues?_some {line : List Char} {fv av : ℚ}
    (h : rowValues? line = some (fv, av)) :
    ∃ g : String × String × String × String, patternMatch line = some g ∧
      pyFloat? g.2.1.data = some fv ∧ pyFloat? g.2.2.1.data = some av := by
  unfold rowValues? at h
  cases hpm : patternMatch line with
  | none => rw [hpm] at h; cases h
  | some g =>
    rw [hpm] at h
    refine ⟨g, rfl, ?_⟩
    cases hf : pyFloat? g.2.1.data with
    | none => simp only [hf] at h; exact Option.noConfusion h
    | some x =>
      cases ha : pyFloat? g.2.2.1.data with
      | none => simp only [hf, ha] at h; exact Option.noConfusion h
      | some y =>
        simp only [hf, ha, Option.some.injEq, Prod.mk.injEq] at h
        exact ⟨by rw [h.1], by rw [h.2]⟩

/-- One in-section step of the loop on an accepted row: its frequency and
activity are prepended to whatever the rest of the file yields. -/
lemma parseRamanLoop_cons_of_row {line : List Char} {rest : List (List Char)} {fv av : ℚ}
    (hm : containsSubstr ramanMarker line = false)
    (hs : isSkippableLine line = false)
    (hrow : rowValues? line = some (fv, av)) :
    parseRamanLoop true (line :: rest) =
      (match parseRamanLoop true rest with
       | Except.ok (fs, xs) => Except.ok (fv :: fs, av :: xs)
       | Except.error e => Except.error e) := by
  obtain ⟨g, hpm, hf, ha⟩ := rowValues?_some hrow
  simp only [parseRamanLoop, hm, Bool.false_eq_true, if_false, if_true, hs, hpm, hf, ha]

/-- In-section, on lines that are each either skippable or a marker-free
accepted row, the loop returns exactly the specification-side extraction. -/
lemma parseRamanLoop_true_section : ∀ sec : List (List Char),
    (∀ l ∈ sec, isSkippableLine l = true ∨
      (containsSubstr ramanMarker l = false ∧ ∃ p, rowValues? l = some p)) →
    parseRamanLoop true sec = Except.ok (specSectionValues sec) := by
  intro sec
  induction sec with
  | nil => intro _; rfl
  | cons line rest ih =>
    intro h
    have hrest := fun x hx => h x (List.mem_cons_of_mem line hx)
    have hline := h line (List.mem_cons_self line rest)
    by_cases hm : containsSubstr ramanMarker line = true
    · have hskip : isSkippableLine line = true := by
        rcases hline with hs | ⟨hm2, _⟩
        · exact hs
        · rw [hm2] at hm; cases hm
      have hloop : parseRamanLoop true (line :: rest) = parseRamanLoop true rest := by
        simp only [parseRamanLoop, hm, if_true]
      have hspec : specSectionValues (line :: rest) = specSectionValues rest := by
        simp only [specSectionValues, hskip, if_true]
      rw [hloop, hspec]
      exact ih hrest
    · have hm' : containsSubstr ramanMarker line = false := by
        cases hcm : containsSubstr ramanMarker line
        · rfl
        · exact absurd hcm hm
      by_cases hsk : isSkippableLine line = true
      · have hloop : parseRamanLoop true (line :: rest) = parseRamanLoop true rest := by
          simp only [parseRamanLoop, hm', Bool.false_eq_true, if_false, if_true, hsk]
        have hspec : specSectionValues (line :: rest) = specSectionValues rest := by
          simp only [specSectionValues, hsk, if_true]
        rw [hloop, hspec]
        exact ih hrest
      · have hs' : isSkippableLine line = false := by
          cases hh : isSkippableLine line
          · rfl
          · exact absurd hh hsk
        rcases hline with hskip | ⟨_, ⟨⟨fv, av⟩, hrow⟩⟩
        · exact absurd hskip hsk
        · rw [parseRamanLoop_cons_of_row hm' hs' hrow, ih hrest]
          simp only [specSectionValues, hs', Bool.false_eq_true, if_false, hrow]

lemma takeWhile_append_of_all (p : Char → Bool) (xs ys : List Char)
    (h : ∀ c ∈ xs, p c = true) :
    (xs ++ ys).takeWhile p = xs ++ ys.takeWhile p := by
  induction xs with
  | nil => rfl
  | cons c t ih =>
    have hc : p c = true := h c (List.mem_cons_self c t)
    simp only [List.cons_append, List.takeWhile_cons, hc, if_true, List.cons.injEq, true_and]
    exact ih (fun x hx => h x (List.mem_cons_of_mem c hx))

lemma dropWhile_append_of_all (p : Char → Bool) (xs ys : List Char)
    (h : ∀ c ∈ xs, p c = true) :
    (xs ++ ys).dropWhile p = ys.dropWhile p := by
  induction xs with
  | nil => rfl
  | cons c t ih =>
    have hc : p c = true := h c (List.mem_cons_self c t)
    simp only [List.cons_append, List.dropWhile_cons, hc, if_true]
    exact ih (fun x hx => h x (List.mem_cons_of_mem c hx))

lemma takeWhile_eq_nil_of_head (p : Char → Bool) (xs ys : List Char)
    (hx : xs ≠ []) (h : ∀ c ∈ xs, p c = false) :
    (xs ++ ys).takeWhile p = [] := by
  cases xs with
  | nil => exact absurd rfl hx
  | cons c t =>
    have hc : p c = false := h c (List.mem_cons_self c t)
    simp [List.takeWhile_cons, hc]

lemma dropWhile_eq_self_of_head (p : Char → Bool) (xs ys : List Char)
    (hx : xs ≠ []) (h : ∀ c ∈ xs, p c = false) :
    (xs ++ ys).dropWhile p = xs ++ ys := by
  cases xs with
  | nil => exact absurd rfl hx
  | cons c t =>
    have hc : p c = false := h c (List.mem_cons_self c t)
    simp [List.dropWhile_cons, hc]

/-- Whitespace characters are not digits or dots. -/
lemma space_not_digitDot {c : Char} (h : isSpaceB c = true) : isDigitDotB c = false := by
  simp only [isSpaceB, Bool.or_eq_true, decide_eq_true_eq] at h
  rcases h with ((((h | h) | h) | h) | h) | h <;> subst h <;> decide

/-- Digits and dots are not whitespace. -/
lemma digitDot_not_space {c : Char} (h : isDigitDotB c = true) : isSpaceB c = false := by
  cases hs : isSpaceB c with
  | false => rfl
  | true => rw [space_not_digitDot hs] at h; cases h

/-- Digits are digit-or-dot characters. -/
lemma digit_digitDot {c : Char} (h : isDigitB c = true) : isDigitDotB c = true := by
  simp [isDigitDotB, h]

/-- Digits are not whitespace. -/
lemma digit_not_space {c : Char} (h : isDigitB c = true) : isSpaceB c = false :=
  digitDot_not_space (digit_digitDot h)

/-- The colon is not a digit. -/
lemma colon_not_digit {c : Char} (h : isDigitB c = true) : c ≠ ':' := by
  intro hc; subst hc; cases h

/-! ## Claim theorems -/

/-- C1: for every file made of a marker-free preamble, a line containing
the marker, and a section in which each line is either skippable (blank,
dash rule, Mode token) or a marker-free numeric row with float-convertible
frequency and activity fields, the parser returns exactly the frequencies
and activities of the matching rows, as floats, in encounter order, with
the skippable lines passed over; in particular the two-row synthetic file
yields frequencies `[100, 200]` and activities `[0.5, 1.5]`. -/
theorem C1_marker_rows_parsed :
    (∀ (pre : List String) (mline : String) (sec : List String),
      (∀ l ∈ pre, containsSubstr ramanMarker l.data = false) →
      containsSubstr ramanMarker mline.data = true →
      (∀ l ∈ sec, isSkippableLine l.data = true ∨
        (containsSubstr ramanMarker l.data = false ∧ ∃ p, rowValues? l.data = some p)) →
      parse_raman_output (pre ++ mline :: sec) =
        Except.ok (specSectionValues (sec.map String.data))) ∧
    parse_raman_output
      ["RAMAN SPECTRUM", "1:    100.0   0.5   0.1", "2:   200.0   1.5   0.2"] =
      Except.ok ([100, 200], [0.5, 1.5]) := by
  constructor
  · intro pre mline sec hpre hm hsec
    unfold parse_raman_output
    simp only [List.map_append, List.map_cons]
    have hmap : ∀ l ∈ pre.map String.data, containsSubstr ramanMarker l = false := by
      intro l hl; rw [List.mem_map] at hl; obtain ⟨s, hs, rfl⟩ := hl; exact hpre s hs
    rw [parseRamanLoop_false_append (pre.map String.data) _ hmap]
    have hstep : parseRamanLoop false (mline.data :: sec.map String.data) =
        parseRamanLoop true (sec.map String.data) := by
      simp only [parseRamanLoop, hm, if_true]
    rw [hstep]
    apply parseRamanLoop_true_section
    intro l hl
    rw [List.mem_map] at hl
    obtain ⟨s, hs, rfl⟩ := hl
    exact hsec s hs
  · have h : parse_raman_output
        ["RAMAN SPECTRUM", "1:    100.0   0.5   0.1", "2:   200.0   1.5   0.2"] =
        Except.ok ([((100:ℕ):ℚ) + ((0:ℕ):ℚ)/10^(1:ℕ), ((200:ℕ):ℚ) + ((0:ℕ):ℚ)/10^(1:ℕ)],
                   [((0:ℕ):ℚ) + ((5:ℕ):ℚ)/10^(1:ℕ), ((1:ℕ):ℚ) + ((5:ℕ):ℚ)/10^(1:ℕ)]) := rfl
    rw [h]
    norm_num

/-- Witness for C1 at a realistic ORCA-shaped file: preamble, marker, dash
rules, a Mode header line, a blank line, and two numeric rows; the two rows
are extracted in order and every skippable line is passed over. -/
theorem C1_marker_rows_parsed_witness :
    parse_raman_output
      (["GEOMETRY OPTIMIZATION CYCLE   1"] ++ "RAMAN SPECTRUM" ::
        ["------------------------",
         " Mode    freq (cm**-1)   Activity   Depolarization",
         "------------------------",
         "",
         "   1:       100.0   0.5   0.1",
         "   2:       200.0   1.5   0.2"]) =
      Except.ok ([100, 200], [0.5, 1.5]) := by
  rw [C1_marker_rows_parsed.1 ["GEOMETRY OPTIMIZATION CYCLE   1"] "RAMAN SPECTRUM"
      ["------------------------",
       " Mode    freq (cm**-1)   Activity   Depolarization",
       "------------------------",
       "",
       "   1:       100.0   0.5   0.1",
       "   2:       200.0   1.5   0.2"]
      (by decide) (by decide) ?_]
  · have h : specSectionValues
        ((["------------------------",
           " Mode    freq (cm**-1)   Activity   Depolarization",
           "------------------------",
           "",
           "   1:       100.0   0.5   0.1",
           "   2:       200.0   1.5   0.2"] : List String).map String.data) =
        ([((100:ℕ):ℚ) + ((0:ℕ):ℚ)/10^(1:ℕ), ((200:ℕ):ℚ) + ((0:ℕ):ℚ)/10^(1:ℕ)],
         [((0:ℕ):ℚ) + ((5:ℕ):ℚ)/10^(1:ℕ), ((1:ℕ):ℚ) + ((5:ℕ):ℚ)/10^(1:ℕ)]) := rfl
    rw [h]
    norm_num
  · intro l hl
    simp only [List.mem_cons, List.not_mem_nil, or_false] at hl
    rcases hl with rfl | rfl | rfl | rfl | rfl | rfl
    · exact Or.inl (by decide)
    · exact Or.inl (by decide)
    · exact Or.inl (by decide)
    · exact Or.inl (by decide)
    · exact Or.inr ⟨by decide, ⟨_, rfl⟩⟩
    · exact Or.inr ⟨by decide, ⟨_, rfl⟩⟩

/-- C2 counterexample: an in-section line that contains the marker again is
neither skippable in the sense of the claim (not blank, no dash rule, no
Mode token) nor a match of the row pattern, yet extraction does not stop
there: the numeric row after it is still included in the result. -/
theorem C2_counterexample :
    isSkippableLine "RAMAN SPECTRUM continues".data = false ∧
    patternMatch "RAMAN SPECTRUM continues".data = none ∧
    parse_raman_output
      ["RAMAN SPECTRUM", "1:    100.0   0.5   0.1",
       "RAMAN SPECTRUM continues", "2:   200.0   1.5   0.2"] =
      Except.ok ([100, 200], [0.5, 1.5]) := by
  refine ⟨by decide, by decide, ?_⟩
  have h : parse_raman_output
      ["RAMAN SPECTRUM", "1:    100.0   0.5   0.1",
       "RAMAN SPECTRUM continues", "2:   200.0   1.5   0.2"] =
      Except.ok ([((100:ℕ):ℚ) + ((0:ℕ):ℚ)/10^(1:ℕ), ((200:ℕ):ℚ) + ((0:ℕ):ℚ)/10^(1:ℕ)],
                 [((0:ℕ):ℚ) + ((5:ℕ):ℚ)/10^(1:ℕ), ((1:ℕ):ℚ) + ((5:ℕ):ℚ)/10^(1:ℕ)]) := rfl
  rw [h]
  norm_num

/-- C2 (amended): while in-section, the first line that does not contain
the marker, is not skippable (blank, dash rule, Mode token), and does not
match the row pattern terminates extraction immediately: the loop returns
the rows collected so far and nothing from the remaining lines. -/
theorem C2_section_terminates (line : List Char) (rest : List (List Char))
    (hm : containsSubstr ramanMarker line = false)
    (hs : isSkippableLine line = false)
    (hp : patternMatch line = none) :
    parseRamanLoop true (line :: rest) = Except.ok ([], []) := by
  simp only [parseRamanLoop, hm, hs, hp, Bool.false_eq_true, if_false, if_true]

/-- Witness for the amended C2: a free-text line ends the section even
though a well-formed numeric row follows it. -/
theorem C2_section_terminates_witness :
    parseRamanLoop true
      ("The first frequency is considered to be a rotation".data ::
        ["2:   200.0   1.5   0.2".data]) = Except.ok ([], []) :=
  C2_section_terminates _ _ (by decide) (by decide) (by decide)

/-- C7: if no line of the file contains the marker, the parser returns two
empty sequences, and on an empty frequency sequence the driver reports the
diagnostic message and returns early instead of saving a figure. -/
theorem C7_no_marker_empty_result :
    (∀ lines : List String, (∀ l ∈ lines, containsSubstr ramanMarker l.data = false) →
      parse_raman_output lines = Except.ok ([], [])) ∧
    (∀ jobname activity, mainAfterParse jobname [] activity =
      MainOutcome.no_raman_data
        "Não foi possível encontrar dados de Raman no arquivo de saída.") := by
  constructor
  · intro lines h
    unfold parse_raman_output
    have hmap : ∀ l ∈ lines.map String.data, containsSubstr ramanMarker l = false := by
      intro l hl; rw [List.mem_map] at hl; obtain ⟨s, hs, rfl⟩ := hl; exact h s hs
    have hrw := parseRamanLoop_false_append (lines.map String.data) [] hmap
    rw [List.append_nil] at hrw
    rw [hrw]
    rfl
  · intro jobname activity
    rfl

/-- Witness for C7 at a concrete marker-free file. -/
theorem C7_no_marker_empty_result_witness :
    parse_raman_output ["ORCA TERMINATED NORMALLY", ""] = Except.ok ([], []) ∧
    mainAfterParse "raman_butano" [] [] =
      MainOutcome.no_raman_data
        "Não foi possível encontrar dados de Raman no arquivo de saída." :=
  ⟨C7_no_marker_empty_result.1 ["ORCA TERMINATED NORMALLY", ""] (by decide),
   C7_no_marker_empty_result.2 "raman_butano" []⟩

/-- C3 counterexample: the row matcher accepts the field `1..2`, which
contains two decimal points, so a field need not consist of digits and a
single decimal point; the subsequent float conversion of that field is the
step that fails. -/
theorem C3_counterexample :
    patternMatch " 1:  1..2  0.5  0.1".data = some ("1", "1..2", "0.5", "0.1") ∧
    "1..2".data.count '.' = 2 ∧
    pyFloat? "1..2".data = none :=
  ⟨by decide, by decide, by decide⟩

/-- C3 (amended): every captured field of the row matcher is a nonempty run
of digits (mode index) or of digits and dots, with any number of dots; and
an in-section row with a value outside that shape in a leading field, such
as a negative frequency, silently ends the section scan. -/
theorem C3_matched_fields :
    (∀ (cs : List Char) (g1 g2 g3 g4 : String),
        patternMatch cs = some (g1, g2, g3, g4) →
        (g1.data ≠ [] ∧ ∀ c ∈ g1.data, isDigitB c = true) ∧
        (g2.data ≠ [] ∧ ∀ c ∈ g2.data, isDigitDotB c = true) ∧
        (g3.data ≠ [] ∧ ∀ c ∈ g3.data, isDigitDotB c = true) ∧
        (g4.data ≠ [] ∧ ∀ c ∈ g4.data, isDigitDotB c = true)) ∧
    (∀ rest, parseRamanLoop true (" 1:   -100.0   0.5   0.1".data :: rest) =
        Except.ok ([], [])) := by
  constructor
  · intro cs g1 g2 g3 g4 h
    simp only [patternMatch, List.span_eq_take_drop] at h
    repeat' split at h
    all_goals try exact Option.noConfusion h
    simp only [Option.some.injEq, Prod.mk.injEq] at h
    obtain ⟨h1, h2, h3, h4⟩ := h
    subst h1; subst h2; subst h3; subst h4
    refine ⟨⟨?_, fun c hc => List.mem_takeWhile_imp hc⟩,
            ⟨?_, fun c hc => List.mem_takeWhile_imp hc⟩,
            ⟨?_, fun c hc => List.mem_takeWhile_imp hc⟩,
            ⟨?_, fun c hc => List.mem_takeWhile_imp hc⟩⟩ <;>
      (intro hnil; simp only [List.isEmpty_iff] at *; exact absurd hnil (by assumption))
  · intro rest
    have hm : containsSubstr ramanMarker " 1:   -100.0   0.5   0.1".data = false := by decide
    have hs : isSkippableLine " 1:   -100.0   0.5   0.1".data = false := by decide
    have hp : patternMatch " 1:   -100.0   0.5   0.1".data = none := by decide
    simp only [parseRamanLoop, hm, hs, hp, Bool.false_eq_true, if_false, if_true]

/-- Witness for the amended C3 at a concrete matched row and a concrete
aborting row. -/
theorem C3_matched_fields_witness :
    isDigitDotB '5' = true ∧
    parseRamanLoop true [" 1:   -100.0   0.5   0.1".data] = Except.ok ([], []) :=
  ⟨((C3_matched_fields.1 " 1:  100.0  0.5  0.1".data "1" "100.0" "0.5" "0.1"
      (by decide)).2.2.1).2 '5' (by decide),
   C3_matched_fields.2 []⟩

lemma isEmpty_false_of_ne_nil {l : List Char} (h : l ≠ []) : l.isEmpty = false := by
  cases l with
  | nil => exact absurd rfl h
  | cons a t => rfl

lemma append_isEmpty_false {xs : List Char} (ys : List Char) (h : xs ≠ []) :
    (xs ++ ys).isEmpty = false := by
  cases xs with
  | nil => exact absurd rfl h
  | cons a t => rfl

/-- C10: the row matcher is anchored only at the start of the line.  First
conjunct: any line whose prefix is optional whitespace, a digit run, a
colon, and three whitespace-separated digit-dot runs matches, whatever
trailing characters follow — the third captured value merely extends
through any immediately following digit-dot characters.  Second conjunct:
an accepted in-section line contributes exactly the float values of its
second and third groups (frequency and activity); the mode index and the
fourth field (depolarization) do not influence the result. -/
theorem C10_no_end_anchor :
    (∀ ws0 d ws1 r1 ws2 r2 ws3 r3 rest : List Char,
      (∀ c ∈ ws0, isSpaceB c = true) →
      d ≠ [] → (∀ c ∈ d, isDigitB c = true) →
      ws1 ≠ [] → (∀ c ∈ ws1, isSpaceB c = true) →
      r1 ≠ [] → (∀ c ∈ r1, isDigitDotB c = true) →
      ws2 ≠ [] → (∀ c ∈ ws2, isSpaceB c = true) →
      r2 ≠ [] → (∀ c ∈ r2, isDigitDotB c = true) →
      ws3 ≠ [] → (∀ c ∈ ws3, isSpaceB c = true) →
      r3 ≠ [] → (∀ c ∈ r3, isDigitDotB c = true) →
      patternMatch
        (ws0 ++ (d ++ (':' :: (ws1 ++ (r1 ++ (ws2 ++ (r2 ++ (ws3 ++ (r3 ++ rest))))))))) =
        some (String.mk d, String.mk r1, String.mk r2,
              String.mk (r3 ++ rest.takeWhile isDigitDotB))) ∧
    (∀ (line : List Char) (rest : List (List Char)) (i f a dp : String) (fv av : ℚ),
      containsSubstr ramanMarker line = false →
      isSkippableLine line = false →
      patternMatch line = some (i, f, a, dp) →
      pyFloat? f.data = some fv → pyFloat? a.data = some av →
      parseRamanLoop true (line :: rest) =
        (match parseRamanLoop true rest with
         | Except.ok (fs, xs) => Except.ok (fv :: fs, av :: xs)
         | Except.error e => Except.error e)) := by
  constructor
  · intro ws0 d ws1 r1 ws2 r2 ws3 r3 rest hws0 hd0 hd hw1 hws1 hr10 hr1 hw2 hws2
      hr20 hr2 hw3 hws3 hr30 hr3
    have hdns : ∀ c ∈ d, isSpaceB c = false := fun c hc => digit_not_space (hd c hc)
    have hr1ns : ∀ c ∈ r1, isSpaceB c = false := fun c hc => digitDot_not_space (hr1 c hc)
    have hr2ns : ∀ c ∈ r2, isSpaceB c = false := fun c hc => digitDot_not_space (hr2 c hc)
    have hr3ns : ∀ c ∈ r3, isSpaceB c = false := fun c hc => digitDot_not_space (hr3 c hc)
    have hws1nd : ∀ c ∈ ws1, isDigitDotB c = false := fun c hc => space_not_digitDot (hws1 c hc)
    have hws2nd : ∀ c ∈ ws2, isDigitDotB c = false := fun c hc => space_not_digitDot (hws2 c hc)
    have hws3nd : ∀ c ∈ ws3, isDigitDotB c = false := fun c hc => space_not_digitDot (hws3 c hc)
    have hcolon : isDigitB ':' = false := rfl
    unfold patternMatch
    simp only [List.span_eq_take_drop]
    rw [dropWhile_append_of_all _ _ _ hws0, dropWhile_eq_self_of_head _ _ _ hd0 hdns,
        takeWhile_append_of_all _ _ _ hd, dropWhile_append_of_all _ _ _ hd]
    simp only [List.takeWhile_cons, List.dropWhile_cons, hcolon, Bool.false_eq_true,
      if_false, List.append_nil, isEmpty_false_of_ne_nil hd0]
    rw [takeWhile_append_of_all _ _ _ hws1, takeWhile_eq_nil_of_head _ _ _ hr10 hr1ns,
        dropWhile_append_of_all _ _ _ hws1, dropWhile_eq_self_of_head _ _ _ hr10 hr1ns]
    simp only [List.append_nil, isEmpty_false_of_ne_nil hw1, Bool.false_eq_true, if_false]
    rw [takeWhile_append_of_all _ _ _ hr1, takeWhile_eq_nil_of_head _ _ _ hw2 hws2nd,
        dropWhile_append_of_all _ _ _ hr1, dropWhile_eq_self_of_head _ _ _ hw2 hws2nd]
    simp only [List.append_nil, isEmpty_false_of_ne_nil hr10, Bool.false_eq_true, if_false]
    rw [takeWhile_append_of_all _ _ _ hws2, takeWhile_eq_nil_of_head _ _ _ hr20 hr2ns,
        dropWhile_append_of_all _ _ _ hws2, dropWhile_eq_self_of_head _ _ _ hr20 hr2ns]
    simp only [List.append_nil, isEmpty_false_of_ne_nil hw2, Bool.false_eq_true, if_false]
    rw [takeWhile_append_of_all _ _ _ hr2, takeWhile_eq_nil_of_head _ _ _ hw3 hws3nd,
        dropWhile_append_of_all _ _ _ hr2, dropWhile_eq_self_of_head _ _ _ hw3 hws3nd]
    simp only [List.append_nil, isEmpty_false_of_ne_nil hr20, Bool.false_eq_true, if_false]
    rw [takeWhile_append_of_all _ _ _ hws3, takeWhile_eq_nil_of_head _ _ _ hr30 hr3ns,
        dropWhile_append_of_all _ _ _ hws3, dropWhile_eq_self_of_head _ _ _ hr30 hr3ns]
    simp only [List.append_nil, isEmpty_false_of_ne_nil hw3, Bool.false_eq_true, if_false]
    rw [takeWhile_append_of_all _ _ _ hr3]
    simp only [append_isEmpty_false _ hr30, Bool.false_eq_true, if_false]
  · intro line rest i f a dp fv av hm hs hp hf ha
    simp only [parseRamanLoop, hm, Bool.false_eq_true, if_false, if_true, hs, hp, hf, ha]

/-- Witness for C10: a concrete row with trailing text still matches, and a
concrete accepted row contributes exactly its frequency and activity. -/
theorem C10_no_end_anchor_witness :
    patternMatch
      (" ".data ++ ("12".data ++ (':' :: ("  ".data ++ ("100.0".data ++ (" ".data ++
        ("0.5".data ++ (" ".data ++ ("0.1".data ++ " trailing text".data))))))))) =
      some (String.mk "12".data, String.mk "100.0".data, String.mk "0.5".data,
            String.mk ("0.1".data ++ " trailing text".data.takeWhile isDigitDotB)) ∧
    parseRamanLoop true [" 1:   100.0   0.5   0.1   extra columns".data] =
      Except.ok ([100], [0.5]) := by
  constructor
  · exact C10_no_end_anchor.1 " ".data "12".data "  ".data "100.0".data " ".data
      "0.5".data " ".data "0.1".data " trailing text".data
      (by decide) (by decide) (by decide) (by decide) (by decide) (by decide) (by decide)
      (by decide) (by decide) (by decide) (by decide) (by decide) (by decide)
      (by decide) (by decide)
  · have hf : pyFloat? ("100.0" : String).data =
        some (((100:ℕ):ℚ) + ((0:ℕ):ℚ)/10^(1:ℕ)) := rfl
    have ha : pyFloat? ("0.5" : String).data =
        some (((0:ℕ):ℚ) + ((5:ℕ):ℚ)/10^(1:ℕ)) := rfl
    have hf2 : pyFloat? ("100.0" : String).data = some 100 := by rw [hf]; norm_num
    have ha2 : pyFloat? ("0.5" : String).data = some 0.5 := by rw [ha]; norm_num
    rw [C10_no_end_anchor.2 " 1:   100.0   0.5   0.1   extra columns".data []
      "1" "100.0" "0.5" "0.1" 100 0.5 (by decide) (by decide) (by decide) hf2 ha2]
    rfl

/-- C4: the temperature factor returns one multiplier per input frequency,
in the same order, equal to `n + 1` with `n = 1 / (exp (hc * nu / (k_B * T)) - 1)`. -/
theorem C4_fator_temperatura_formula :
    ∀ (freq_cm : List ℝ) (T : ℝ),
      fator_temperatura freq_cm T =
        freq_cm.map (fun ν => 1 / (Real.exp (hc * ν / (k_B * T)) - 1) + 1) ∧
      (fator_temperatura freq_cm T).length = freq_cm.length := by
  intro freq T
  constructor
  · unfold fator_temperatura
    have h : stokesMultiplier T = fun ν => 1 / (Real.exp (hc * ν / (k_B * T)) - 1) + 1 := by
      funext ν
      unfold stokesMultiplier
      norm_num
    rw [h]
  · unfold fator_temperatura
    exact List.length_map _ _

/-- C5: the wavelength converter computes, per element and in order, the
laser wavenumber `1e7 / laser_nm`, subtracts the frequency in Stokes mode
(case-insensitive on the word stokes) and adds it in any other mode, clamps
scattered wavenumbers at most `1e-6` up to `1e-6`, and inverts; the two
532 nm / 1000 inverse-cm round trips and the zero-shift clamp come out as the
claim states. -/
theorem C5_converter_formula :
    (∀ (freq_cm : List ℚ) (laser : ℚ) (modo : String),
      converter_cm_inv_para_nm_deslocado freq_cm laser modo =
        freq_cm.map (fun ν =>
          1e7 / (if (if modoEhStokes modo then 1e7 / laser - ν else 1e7 / laser + ν) ≤ 1e-6
                 then (1e-6 : ℚ)
                 else if modoEhStokes modo then 1e7 / laser - ν else 1e7 / laser + ν))) ∧
    converter_cm_inv_para_nm_deslocado [1000] 532 "Stokes" = [1e7 / (1e7 / 532 - 1000)] ∧
    converter_cm_inv_para_nm_deslocado [1000] 532 "Anti-Stokes" = [1e7 / (1e7 / 532 + 1000)] ∧
    converter_cm_inv_para_nm_deslocado [1e7 / 532] 532 "Stokes" = [1e7 / (1e-6 : ℚ)] := by
  refine ⟨?_, ?_, ?_, ?_⟩
  · intro freq laser modo
    unfold converter_cm_inv_para_nm_deslocado
    cases hmod : modoEhStokes modo <;>
      simp only [hmod, if_true, if_false, Bool.false_eq_true, List.map_map] <;> rfl
  · unfold converter_cm_inv_para_nm_deslocado
    have hm : modoEhStokes "Stokes" = true := by decide
    simp only [hm, if_true, List.map_cons, List.map_nil]
    rw [if_neg (by norm_num : ¬ ((1e7 / 532 - 1000 : ℚ) ≤ 1e-6))]
  · unfold converter_cm_inv_para_nm_deslocado
    have hm : modoEhStokes "Anti-Stokes" = false := by decide
    simp only [hm, Bool.false_eq_true, if_false, List.map_cons, List.map_nil]
    rw [if_neg (by norm_num : ¬ ((1e7 / 532 + 1000 : ℚ) ≤ 1e-6))]
  · unfold converter_cm_inv_para_nm_deslocado
    have hm : modoEhStokes "Stokes" = true := by decide
    simp only [hm, if_true, List.map_cons, List.map_nil]
    rw [if_pos (by norm_num : ((1e7 / 532 - 1e7 / 532 : ℚ) ≤ 1e-6))]

/-- C6: on a geometry file whose first line declares `k` atoms and which
has at least `2 + k` lines, the generator writes `<jobname>.inp` holding
the template header, then exactly the `k` coordinate lines (file lines 3
through `k + 2`) verbatim, then the closing marker. -/
theorem C6_gerar_input (l0 : String) (tl : List String) (method basis jobname : String)
    (k : Nat)
    (hk : parseNatLine l0.data = some k)
    (hpos : 0 < k)
    (hlen : 2 + k ≤ (l0 :: tl).length) :
    gerar_input_orca (l0 :: tl) method basis jobname =
      some (jobname ++ ".inp",
        orcaHeader method basis ++ String.join (((l0 :: tl).drop 2).take k) ++ "*\n") ∧
    (((l0 :: tl).drop 2).take k).length = k := by
  constructor
  · have hstep : gerar_input_orca (l0 :: tl) method basis jobname =
        (match parseNatLine l0.data with
         | none => (none : Option (String × String))
         | some natoms =>
             some (jobname ++ ".inp",
               orcaHeader method basis ++
                 String.join (((l0 :: tl).drop 2).take natoms) ++ "*\n")) := rfl
    rw [hstep, hk]
  · simp only [List.length_take, List.length_drop, List.length_cons] at *
    omega

/-- Witness for C6 at a concrete four-atom geometry file. -/
theorem C6_gerar_input_witness :
    gerar_input_orca
      ["4\n", "methane-like fragment\n",
       "C   0.0   0.0   0.0\n", "H   1.0   0.0   0.0\n",
       "H   0.0   1.0   0.0\n", "H   0.0   0.0   1.0\n"] "BP86" "def2-SVP" "raman_job" =
      some ("raman_job" ++ ".inp",
        orcaHeader "BP86" "def2-SVP" ++
          String.join (((["4\n", "methane-like fragment\n",
            "C   0.0   0.0   0.0\n", "H   1.0   0.0   0.0\n",
            "H   0.0   1.0   0.0\n", "H   0.0   0.0   1.0\n"] : List String).drop 2).take 4) ++
          "*\n") ∧
    (((["4\n", "methane-like fragment\n",
        "C   0.0   0.0   0.0\n", "H   1.0   0.0   0.0\n",
        "H   0.0   1.0   0.0\n", "H   0.0   0.0   1.0\n"] : List String).drop 2).take 4).length =
      4 :=
  C6_gerar_input "4\n"
    ["methane-like fragment\n", "C   0.0   0.0   0.0\n", "H   1.0   0.0   0.0\n",
     "H   0.0   1.0   0.0\n", "H   0.0   0.0   1.0\n"]
    "BP86" "def2-SVP" "raman_job" 4 (by decide) (by decide) (by decide)

/-- C8: at frequency zero the denominator of the population term is exactly
zero for every temperature, so the temperature factor divides by zero there
(no guard intercepts it). -/
theorem C8_zero_frequency_division :
    ∀ T : ℝ, Real.exp (hc * 0 / (k_B * T)) - 1 = 0 ∧
      fator_temperatura [0] T = [1 / (0:ℝ) + 1] := by
  intro T
  have harg : hc * 0 / (k_B * T) = 0 := by rw [mul_zero, zero_div]
  constructor
  · rw [harg, Real.exp_zero, sub_self]
  · unfold fator_temperatura stokesMultiplier
    simp only [List.map_cons, List.map_nil]
    rw [harg, Real.exp_zero]
    norm_num

/-- If the exponent argument tends to infinity, the multiplier
`1 / (exp - 1) + 1` tends to one. -/
lemma tendsto_multiplier_one {l : Filter ℝ} {g : ℝ → ℝ}
    (hg : Filter.Tendsto g l Filter.atTop) :
    Filter.Tendsto (fun x => 1.0 / (Real.exp (g x) - 1.0) + 1) l (nhds 1) := by
  have h0 : Filter.Tendsto (fun x => Real.exp (g x)) l Filter.atTop :=
    Real.tendsto_exp_atTop.comp hg
  have h1 : Filter.Tendsto (fun x => Real.exp (g x) - 1.0) l Filter.atTop := by
    have := Filter.tendsto_atTop_add_const_right l (-1 : ℝ) h0
    exact this.congr (fun x => by ring)
  have h2 : Filter.Tendsto (fun x => (Real.exp (g x) - 1.0)⁻¹) l (nhds 0) :=
    h1.inv_tendsto_atTop
  have h3 : Filter.Tendsto (fun x => (Real.exp (g x) - 1.0)⁻¹ + 1) l (nhds (0 + 1)) :=
    h2.add tendsto_const_nhds
  have h4 : Filter.Tendsto (fun x => 1.0 / (Real.exp (g x) - 1.0) + 1) l (nhds (0 + 1)) :=
    h3.congr (fun x => by ring)
  simpa using h4

/-- C9: the temperature factor exceeds one at 300 K and 1000 inverse cm,
tends to one as the frequency grows without bound at fixed temperature, and
tends to one as the temperature decreases to zero at fixed frequency. -/
theorem C9_factor_limits :
    1 < stokesMultiplier 300 1000 ∧
    Filter.Tendsto (fun ν => stokesMultiplier 300 ν) Filter.atTop (nhds 1) ∧
    Filter.Tendsto (fun T => stokesMultiplier T 1000) (nhdsWithin 0 (Set.Ioi 0)) (nhds 1) := by
  have hhc : (0:ℝ) < hc := by unfold hc; norm_num
  have hkB : (0:ℝ) < k_B := by unfold k_B; norm_num
  refine ⟨?_, ?_, ?_⟩
  · unfold stokesMultiplier
    have hx : (0:ℝ) < hc * 1000 / (k_B * 300) :=
      div_pos (mul_pos hhc (by norm_num)) (mul_pos hkB (by norm_num))
    have he : 1 < Real.exp (hc * 1000 / (k_B * 300)) := Real.one_lt_exp_iff.mpr hx
    have hd : (0:ℝ) < Real.exp (hc * 1000 / (k_B * 300)) - 1.0 := by
      norm_num
      linarith
    have hq : (0:ℝ) < 1.0 / (Real.exp (hc * 1000 / (k_B * 300)) - 1.0) :=
      div_pos (by norm_num) hd
    linarith
  · unfold stokesMultiplier
    apply tendsto_multiplier_one
    have harg : (fun ν : ℝ => hc * ν / (k_B * 300)) = fun ν => hc / (k_B * 300) * ν := by
      funext ν; ring
    rw [harg]
    have hr : (0:ℝ) < hc / (k_B * 300) := div_pos hhc (mul_pos hkB (by norm_num))
    exact (Filter.tendsto_const_mul_atTop_of_pos hr).mpr Filter.tendsto_id
  · unfold stokesMultiplier
    apply tendsto_multiplier_one
    have harg : (fun T : ℝ => hc * 1000 / (k_B * T)) = fun T => hc * 1000 / k_B * T⁻¹ := by
      funext T
      rw [div_eq_mul_inv, mul_inv, div_eq_mul_inv]
      ring
    rw [harg]
    have hr : (0:ℝ) < hc * 1000 / k_B := div_pos (mul_pos hhc (by norm_num)) hkB
    exact (Filter.tendsto_const_mul_atTop_of_pos hr).mpr tendsto_inv_zero_atTop
